import Mathlib

set_option maxHeartbeats 1000000

/-!
A shallow embedding of the Quranic-text database schema (quran/models.py):
record types for the six entities, a database state, insert operations that
enforce the declared constraints (unique, unique_together, NOT NULL, foreign
keys), cascading deletes following the declared `on_delete=CASCADE` rules,
and the pure presentation helpers (`end_marker`, `get_absolute_url`, and the
`__str__` renderings that delegate to the external `unicode_to_buckwalter`
transliteration, modelled as an arbitrary function parameter `ub`).
-/

/-- Sura (chapter) of the Quran. The primary key is `number`. -/
structure Sura where
  number : Int
  name : String
  tname : String
  ename : String
  order : Int
  type : String
  rukus : Int
  bismillah : String
deriving DecidableEq

/-- Aya (verse) of the Quran. `id` is the implicit auto primary key; `sura`
is the foreign key holding the referenced Sura's `number`. -/
structure Aya where
  id : Nat
  number : Int
  sura : Int
  text : String
deriving DecidableEq

/-- Metadata relating to a translation of the Quran. -/
structure QuranTranslation where
  id : Nat
  name : String
  translator : String
  source_name : String
  source_url : String
deriving DecidableEq

/-- Translation of an aya. `sura`, `aya` and `translation` are foreign keys. -/
structure TranslatedAya where
  id : Nat
  sura : Int
  aya : Nat
  translation : Nat
  text : String
deriving DecidableEq

/-- Root word. `letters` is declared unique. -/
structure Root where
  id : Nat
  letters : String
deriving DecidableEq

/-- Distinct Arabic word (lemma); `root` is a nullable foreign key. -/
structure Lemma where
  id : Nat
  token : String
  root : Option Nat
deriving DecidableEq

/-- Arabic word occurrence in the Quran: the join entity linking Sura, Aya,
Root and Lemma. `root` is nullable; `lemma` is required (NOT NULL). -/
structure Word where
  id : Nat
  sura : Int
  aya : Nat
  number : Int
  token : String
  root : Option Nat
  lemma' : Nat
deriving DecidableEq

/-- Errors surfaced by the persistence layer at write time. -/
inductive DbError where
  | uniquenessViolation
  | requiredFieldMissing
  | foreignKeyViolation
deriving DecidableEq

/-- The database state: one table per entity. -/
structure DB where
  suras : List Sura
  ayas : List Aya
  quranTranslations : List QuranTranslation
  translatedAyas : List TranslatedAya
  roots : List Root
  lemmas : List Lemma
  words : List Word
deriving DecidableEq

/-- The empty database. -/
def DB.empty : DB := ⟨[], [], [], [], [], [], []⟩

/-- Insert a Sura: `number` is the primary key, so it must be fresh. -/
def insertSura (db : DB) (s : Sura) : Except DbError DB :=
  if db.suras.any (fun t => t.number == s.number) then
    .error .uniquenessViolation
  else
    .ok { db with suras := s :: db.suras }

/-- Insert an Aya: enforces `unique_together ('number', 'sura')`, primary-key
freshness, and the foreign key to Sura. -/
def insertAya (db : DB) (a : Aya) : Except DbError DB :=
  if db.ayas.any (fun b => b.sura == a.sura && b.number == a.number) then
    .error .uniquenessViolation
  else if db.ayas.any (fun b => b.id == a.id) then
    .error .uniquenessViolation
  else if db.suras.any (fun s => s.number == a.sura) then
    .ok { db with ayas := a :: db.ayas }
  else
    .error .foreignKeyViolation

/-- Insert a QuranTranslation. -/
def insertQuranTranslation (db : DB) (q : QuranTranslation) : Except DbError DB :=
  if db.quranTranslations.any (fun t => t.id == q.id) then
    .error .uniquenessViolation
  else
    .ok { db with quranTranslations := q :: db.quranTranslations }

/-- Insert a TranslatedAya: enforces `unique_together ('aya', 'translation')`,
primary-key freshness, and the foreign keys to Sura, Aya and QuranTranslation. -/
def insertTranslatedAya (db : DB) (t : TranslatedAya) : Except DbError DB :=
  if db.translatedAyas.any (fun u => u.aya == t.aya && u.translation == t.translation) then
    .error .uniquenessViolation
  else if db.translatedAyas.any (fun u => u.id == t.id) then
    .error .uniquenessViolation
  else if db.suras.any (fun s => s.number == t.sura) &&
          db.ayas.any (fun a => a.id == t.aya) &&
          db.quranTranslations.any (fun q => q.id == t.translation) then
    .ok { db with translatedAyas := t :: db.translatedAyas }
  else
    .error .foreignKeyViolation

/-- Insert a Root: `letters` is unique. -/
def insertRoot (db : DB) (r : Root) : Except DbError DB :=
  if db.roots.any (fun t => t.letters == r.letters || t.id == r.id) then
    .error .uniquenessViolation
  else
    .ok { db with roots := r :: db.roots }

/-- Insert a Lemma: `token` is unique; `root` is nullable but must reference
an existing Root when present. -/
def insertLemma (db : DB) (l : Lemma) : Except DbError DB :=
  if db.lemmas.any (fun t => t.token == l.token || t.id == l.id) then
    .error .uniquenessViolation
  else
    match l.root with
    | none => .ok { db with lemmas := l :: db.lemmas }
    | some rid =>
        if db.roots.any (fun r => r.id == rid) then
          .ok { db with lemmas := l :: db.lemmas }
        else
          .error .foreignKeyViolation

/-- Raw column data supplied when inserting a Word: both `root` and `lemma`
arrive as optional values; the schema then requires `lemma` to be present
(`NOT NULL`) while `root` may stay null. -/
structure WordInput where
  sura : Int
  aya : Nat
  number : Int
  token : String
  root : Option Nat
  lemma' : Option Nat
deriving DecidableEq

/-- Insert a Word with fresh id `i`: enforces the NOT NULL constraint on
`lemma`, `unique_together ('aya', 'number')`, primary-key freshness, and the
foreign keys to Sura, Aya, Lemma and (when present) Root. -/
def insertWord (db : DB) (i : Nat) (w : WordInput) : Except DbError DB :=
  match w.lemma' with
  | none => .error .requiredFieldMissing
  | some lid =>
      if db.words.any (fun v => v.aya == w.aya && v.number == w.number) then
        .error .uniquenessViolation
      else if db.words.any (fun v => v.id == i) then
        .error .uniquenessViolation
      else if db.suras.any (fun s => s.number == w.sura) &&
              db.ayas.any (fun a => a.id == w.aya) &&
              db.lemmas.any (fun l => l.id == lid) &&
              (match w.root with
               | none => true
               | some rid => db.roots.any (fun r => r.id == rid)) then
        .ok { db with words := ⟨i, w.sura, w.aya, w.number, w.token, w.root, lid⟩ :: db.words }
      else
        .error .foreignKeyViolation

/-- Delete the Sura numbered `S`, cascading: its Ayas go, and every Word and
TranslatedAya referencing either the Sura directly or a deleted Aya goes too
(all three foreign keys are declared `on_delete=CASCADE`). -/
def deleteSura (db : DB) (S : Int) : DB :=
  let deadAyas := db.ayas.filter (fun a => a.sura == S)
  { db with
    suras := db.suras.filter (fun s => !(s.number == S))
    ayas := db.ayas.filter (fun a => !(a.sura == S))
    translatedAyas := db.translatedAyas.filter
      (fun t => !(t.sura == S) && !(deadAyas.any (fun a => a.id == t.aya)))
    words := db.words.filter
      (fun w => !(w.sura == S) && !(deadAyas.any (fun a => a.id == w.aya))) }

/-- Delete the Root with id `R`, cascading: its dependent Lemmas go, and every
Word referencing either the Root directly or a deleted Lemma goes too
(`Lemma.root` and `Word.root`/`Word.lemma` are all `on_delete=CASCADE`). -/
def deleteRoot (db : DB) (R : Nat) : DB :=
  let deadLemmas := db.lemmas.filter (fun l => l.root == some R)
  { db with
    roots := db.roots.filter (fun r => !(r.id == R))
    lemmas := db.lemmas.filter (fun l => !(l.root == some R))
    words := db.words.filter
      (fun w => !(w.root == some R) && !(deadLemmas.any (fun l => l.id == w.lemma'))) }

/-- Run an Aya insert statefully: on failure the database is returned
unchanged alongside the error. -/
def tryInsertAya (db : DB) (a : Aya) : DB × Option DbError :=
  match insertAya db a with
  | .ok db' => (db', none)
  | .error e => (db, some e)

/-- Django's `mark_safe`: on string content, the identity. -/
def mark_safe (s : String) : String := s

/-- `Aya.end_marker`: the fixed HTML-entity string from the source. -/
def Aya.end_marker (_ : Aya) : String := mark_safe ("&#64831;&#1633;&#64830;")

/-- `Sura.get_absolute_url`: route name plus the sura number. -/
def Sura.get_absolute_url (s : Sura) : String × List String :=
  ("quran_sura", [toString s.number])

/-- `Aya.get_absolute_url`: route name plus sura id and aya number. -/
def Aya.get_absolute_url (a : Aya) : String × List String :=
  ("quran_aya", [toString a.sura, toString a.number])

/-- `Root.get_absolute_url`: route name plus the root's id. -/
def Root.get_absolute_url (r : Root) : String × List String :=
  ("quran_root", [toString r.id])

/-- `Lemma.get_absolute_url`: route name plus the lemma's id. -/
def Lemma.get_absolute_url (l : Lemma) : String × List String :=
  ("quran_lemma", [toString l.id])

/-- `Word.get_absolute_url`: route name plus sura id, the referenced Aya's
number (a lookup through the `aya` foreign key), and the word's number.
`none` when the referenced Aya does not exist. -/
def Word.get_absolute_url (db : DB) (w : Word) : Option (String × List String) :=
  match db.ayas.find? (fun a => a.id == w.aya) with
  | some a => some ("quran_word", [toString w.sura, toString a.number, toString w.number])
  | none => none

/-- `Sura.__str__`: returns the `tname` field directly. -/
def Sura.str (s : Sura) : String := s.tname

/-- `Aya.__str__`: `unicode_to_buckwalter(self.text)`; `ub` stands for the
external `unicode_to_buckwalter` function. -/
def Aya.str (ub : String → String) (a : Aya) : String := ub a.text

/-- `Root.__str__`: `unicode_to_buckwalter(self.letters)`. -/
def Root.str (ub : String → String) (r : Root) : String := ub r.letters

/-- `Lemma.__str__`: `unicode_to_buckwalter(self.token)`. -/
def Lemma.str (ub : String → String) (l : Lemma) : String := ub l.token

/-- `Word.__str__`: `unicode_to_buckwalter(self.token)`. -/
def Word.str (ub : String → String) (w : Word) : String := ub w.token

/-- Split a character list on a separator character. -/
def splitOnChar (sep : Char) : List Char → List (List Char)
  | [] => [[]]
  | c :: cs =>
      if c = sep then [] :: splitOnChar sep cs
      else
        match splitOnChar sep cs with
        | [] => [[c]]
        | g :: gs => (c :: g) :: gs

/-- Read a decimal digit list as a natural number. -/
def digitsToNat (cs : List Char) : Nat :=
  cs.foldl (fun n c => n * 10 + (c.toNat - 48)) 0

/-- Decode one HTML numeric character reference body `&#<digits>` into its
code point. -/
def entityCode : List Char → Option Nat
  | '&' :: '#' :: ds =>
      if !ds.isEmpty && ds.all Char.isDigit then some (digitsToNat ds) else none
  | _ => none

/-- The code points denoted by a string of `&#N;` HTML numeric character
references. -/
def entityCodepoints (s : String) : List Nat :=
  (splitOnChar (';') s.toList).filterMap entityCode

/-- Uniqueness of `(sura, number)` across an Aya table. -/
def AyaUT (l : List Aya) : Prop :=
  ∀ a ∈ l, ∀ b ∈ l, a.sura = b.sura → a.number = b.number → a = b

/-- Uniqueness of `(aya, number)` across a Word table. -/
def WordUT (l : List Word) : Prop :=
  ∀ v ∈ l, ∀ w ∈ l, v.aya = w.aya → v.number = w.number → v = w

/-- Uniqueness of `(aya, translation)` across a TranslatedAya table. -/
def TAUT (l : List TranslatedAya) : Prop :=
  ∀ t ∈ l, ∀ u ∈ l, t.aya = u.aya → t.translation = u.translation → t = u

/-- The unique-together invariants declared by the schema. -/
def SchemaInv (db : DB) : Prop :=
  AyaUT db.ayas ∧ WordUT db.words ∧ TAUT db.translatedAyas

/-- One write operation of the schema layer. -/
inductive Step : DB → DB → Prop where
  | insSura {db db' : DB} (s : Sura) : insertSura db s = .ok db' → Step db db'
  | insAya {db db' : DB} (a : Aya) : insertAya db a = .ok db' → Step db db'
  | insQT {db db' : DB} (q : QuranTranslation) : insertQuranTranslation db q = .ok db' → Step db db'
  | insTA {db db' : DB} (t : TranslatedAya) : insertTranslatedAya db t = .ok db' → Step db db'
  | insRoot {db db' : DB} (r : Root) : insertRoot db r = .ok db' → Step db db'
  | insLemma {db db' : DB} (l : Lemma) : insertLemma db l = .ok db' → Step db db'
  | insWord {db db' : DB} (i : Nat) (w : WordInput) : insertWord db i w = .ok db' → Step db db'
  | delSura {db : DB} (S : Int) : Step db (deleteSura db S)
  | delRoot {db : DB} (R : Nat) : Step db (deleteRoot db R)

/-- Database states reachable from the empty database by write operations. -/
inductive Reachable : DB → Prop where
  | empty : Reachable DB.empty
  | step {db db' : DB} : Reachable db → Step db db' → Reachable db'

def suraFatihah : Sura := ⟨1, "الفاتحة", "Al-Fatihah", "The Opening", 5, "Meccan", 1, ""⟩

def ayaOne : Aya := ⟨1, 1, 1, "بسم الله الرحمن الرحيم"⟩

def ayaTwo : Aya := ⟨2, 2, 1, "الحمد لله رب العالمين"⟩

def qtA : QuranTranslation := ⟨1, "Quran in English", "A", "S1", "http://one.example"⟩

def qtB : QuranTranslation := ⟨2, "Quran en français", "B", "S2", "http://two.example"⟩

def taA : TranslatedAya := ⟨1, 1, 1, 1, "In the name of God"⟩

def taB : TranslatedAya := ⟨2, 1, 1, 2, "Au nom de Dieu"⟩

def rootSmw : Root := ⟨1, "سمو"⟩

def lemmaIsm : Lemma := ⟨1, "اسم", some 1⟩

def wiOne : WordInput := ⟨1, 1, 1, "بسم", some 1, some 1⟩

def wiTwo : WordInput := ⟨1, 1, 2, "الله", none, some 1⟩

def wdOne : Word := ⟨1, 1, 1, 1, "بسم", some 1, 1⟩

def wdTwo : Word := ⟨2, 1, 1, 2, "الله", none, 1⟩

def dbR1 : DB := { DB.empty with suras := [suraFatihah] }

def dbR2 : DB := { dbR1 with ayas := [ayaOne] }

def dbR3 : DB := { dbR1 with ayas := [ayaTwo, ayaOne] }

def dbR4 : DB := { dbR3 with quranTranslations := [qtA] }

def dbR5 : DB := { dbR3 with quranTranslations := [qtB, qtA] }

def dbR6 : DB := { dbR5 with translatedAyas := [taA] }

def dbR7 : DB := { dbR5 with translatedAyas := [taB, taA] }

def dbR8 : DB := { dbR7 with roots := [rootSmw] }

def dbR9 : DB := { dbR8 with lemmas := [lemmaIsm] }

def dbR10 : DB := { dbR9 with words := [wdOne] }

/-- A populated database, built from the empty one by the write operations. -/
def dbFull : DB := { dbR9 with words := [wdTwo, wdOne] }

def ayaDup : Aya := ⟨7, 1, 1, "duplicate"⟩

def lemmaRootless : Lemma := ⟨2, "قال", none⟩

def wdRootless : Word := ⟨3, 1, 1, 3, "قل", none, 2⟩

def dbFrame : DB := { dbFull with lemmas := [lemmaRootless, lemmaIsm], words := [wdRootless, wdTwo, wdOne] }

def wiNoLemma : WordInput := ⟨1, 1, 3, "قل", none, none⟩

def wiNoRoot : WordInput := ⟨1, 1, 3, "قل", none, some 1⟩

def suraSameKey : Sura := ⟨1, "other", "Other", "Other", 9, "Medinan", 2, "b"⟩

def ayaSameKey : Aya := ⟨9, 1, 1, "other text"⟩

def wdSameKey : Word := ⟨9, 1, 1, 1, "آخر", none, 1⟩

def suraStrA : Sura := ⟨1, "السجدة", "As-Sajdah", "The Prostration", 75, "Meccan", 3, "b"⟩

def suraStrB : Sura := ⟨2, "السجدة", "Other-Name", "Other", 76, "Meccan", 3, "b"⟩

theorem insertSura_ok {db db' : DB} {s : Sura} (h : insertSura db s = .ok db') :
    db' = { db with suras := s :: db.suras } := by
  unfold insertSura at h
  split at h
  · exact absurd h (by simp)
  · exact (Except.ok.injEq _ _ ▸ congrArg id h).symm ▸ rfl

theorem insertAya_ok {db db' : DB} {a : Aya} (h : insertAya db a = .ok db') :
    db' = { db with ayas := a :: db.ayas } ∧
      db.ayas.any (fun b => b.sura == a.sura && b.number == a.number) = false := by
  unfold insertAya at h
  split at h
  · exact absurd h (by simp)
  next h1 =>
  split at h
  · exact absurd h (by simp)
  split at h
  · refine ⟨by injection h; simp_all, by simpa using h1⟩
  · exact absurd h (by simp)

theorem insertQuranTranslation_ok {db db' : DB} {q : QuranTranslation}
    (h : insertQuranTranslation db q = .ok db') :
    db' = { db with quranTranslations := q :: db.quranTranslations } := by
  unfold insertQuranTranslation at h
  split at h
  · exact absurd h (by simp)
  · injection h with h; exact h.symm

theorem insertRoot_ok {db db' : DB} {r : Root} (h : insertRoot db r = .ok db') :
    db' = { db with roots := r :: db.roots } := by
  unfold insertRoot at h
  split at h
  · exact absurd h (by simp)
  · injection h with h; exact h.symm

theorem insertLemma_ok {db db' : DB} {l : Lemma} (h : insertLemma db l = .ok db') :
    db' = { db with lemmas := l :: db.lemmas } := by
  unfold insertLemma at h
  split at h
  · exact absurd h (by simp)
  · split at h
    · injection h with h; exact h.symm
    · split at h
      · injection h with h; exact h.symm
      · exact absurd h (by simp)

theorem insertTranslatedAya_ok {db db' : DB} {t : TranslatedAya}
    (h : insertTranslatedAya db t = .ok db') :
    db' = { db with translatedAyas := t :: db.translatedAyas } ∧
      db.translatedAyas.any (fun u => u.aya == t.aya && u.translation == t.translation) = false := by
  unfold insertTranslatedAya at h
  split at h
  · exact absurd h (by simp)
  next h1 =>
  split at h
  · exact absurd h (by simp)
  split at h
  · refine ⟨by injection h with h; exact h.symm, by simpa using h1⟩
  · exact absurd h (by simp)

theorem insertWord_ok {db db' : DB} {i : Nat} {w : WordInput} (h : insertWord db i w = .ok db') :
    (∃ lid, w.lemma' = some lid ∧
      db' = { db with words := ⟨i, w.sura, w.aya, w.number, w.token, w.root, lid⟩ :: db.words }) ∧
    db.words.any (fun v => v.aya == w.aya && v.number == w.number) = false := by
  unfold insertWord at h
  split at h
  · exact absurd h (by simp)
  next lid heq =>
  split at h
  · exact absurd h (by simp)
  next h1 =>
  split at h
  · exact absurd h (by simp)
  split at h
  · refine ⟨⟨lid, heq, by injection h with h; exact h.symm⟩, by simpa using h1⟩
  · exact absurd h (by simp)

theorem ayaUT_cons {l : List Aya} {a : Aya}
    (hdup : l.any (fun b => b.sura == a.sura && b.number == a.number) = false)
    (h : AyaUT l) : AyaUT (a :: l) := by
  have hno : ∀ b ∈ l, ¬(b.sura = a.sura ∧ b.number = a.number) := by
    intro b hb hc
    have := List.any_eq_false.mp hdup b hb
    simp [hc.1, hc.2] at this
  intro x hx y hy hs hn
  rcases List.mem_cons.mp hx with hxa | hxl <;> rcases List.mem_cons.mp hy with hya | hyl
  · rw [hxa, hya]
  · subst hxa; exact absurd ⟨hs.symm, hn.symm⟩ (hno y hyl)
  · subst hya; exact absurd ⟨hs, hn⟩ (hno x hxl)
  · exact h x hxl y hyl hs hn

theorem wordUT_cons {l : List Word} {v : Word}
    (hdup : l.any (fun u => u.aya == v.aya && u.number == v.number) = false)
    (h : WordUT l) : WordUT (v :: l) := by
  have hno : ∀ u ∈ l, ¬(u.aya = v.aya ∧ u.number = v.number) := by
    intro u hu hc
    have := List.any_eq_false.mp hdup u hu
    simp [hc.1, hc.2] at this
  intro x hx y hy hs hn
  rcases List.mem_cons.mp hx with hxa | hxl <;> rcases List.mem_cons.mp hy with hya | hyl
  · rw [hxa, hya]
  · subst hxa; exact absurd ⟨hs.symm, hn.symm⟩ (hno y hyl)
  · subst hya; exact absurd ⟨hs, hn⟩ (hno x hxl)
  · exact h x hxl y hyl hs hn

theorem taUT_cons {l : List TranslatedAya} {t : TranslatedAya}
    (hdup : l.any (fun u => u.aya == t.aya && u.translation == t.translation) = false)
    (h : TAUT l) : TAUT (t :: l) := by
  have hno : ∀ u ∈ l, ¬(u.aya = t.aya ∧ u.translation = t.translation) := by
    intro u hu hc
    have := List.any_eq_false.mp hdup u hu
    simp [hc.1, hc.2] at this
  intro x hx y hy hs hn
  rcases List.mem_cons.mp hx with hxa | hxl <;> rcases List.mem_cons.mp hy with hya | hyl
  · rw [hxa, hya]
  · subst hxa; exact absurd ⟨hs.symm, hn.symm⟩ (hno y hyl)
  · subst hya; exact absurd ⟨hs, hn⟩ (hno x hxl)
  · exact h x hxl y hyl hs hn

theorem ayaUT_filter {l : List Aya} (p : Aya → Bool) (h : AyaUT l) : AyaUT (l.filter p) :=
  fun a ha b hb => h a (List.mem_of_mem_filter ha) b (List.mem_of_mem_filter hb)

theorem wordUT_filter {l : List Word} (p : Word → Bool) (h : WordUT l) : WordUT (l.filter p) :=
  fun a ha b hb => h a (List.mem_of_mem_filter ha) b (List.mem_of_mem_filter hb)

theorem taUT_filter {l : List TranslatedAya} (p : TranslatedAya → Bool) (h : TAUT l) :
    TAUT (l.filter p) :=
  fun a ha b hb => h a (List.mem_of_mem_filter ha) b (List.mem_of_mem_filter hb)

/-- Every write operation preserves the declared unique-together invariants. -/
theorem step_inv {db db' : DB} (hs : Step db db') (ih : SchemaInv db) : SchemaInv db' := by
  cases hs with
  | insSura s h =>
      obtain rfl := insertSura_ok h
      exact ih
  | insAya a h =>
      obtain ⟨rfl, hdup⟩ := insertAya_ok h
      exact ⟨ayaUT_cons hdup ih.1, ih.2.1, ih.2.2⟩
  | insQT q h =>
      obtain rfl := insertQuranTranslation_ok h
      exact ih
  | insTA t h =>
      obtain ⟨rfl, hdup⟩ := insertTranslatedAya_ok h
      exact ⟨ih.1, ih.2.1, taUT_cons hdup ih.2.2⟩
  | insRoot r h =>
      obtain rfl := insertRoot_ok h
      exact ih
  | insLemma l h =>
      obtain rfl := insertLemma_ok h
      exact ih
  | insWord i w h =>
      obtain ⟨⟨lid, hl, rfl⟩, hdup⟩ := insertWord_ok h
      exact ⟨ih.1, wordUT_cons (by simpa using hdup) ih.2.1, ih.2.2⟩
  | delSura S =>
      exact ⟨ayaUT_filter _ ih.1, wordUT_filter _ ih.2.1, taUT_filter _ ih.2.2⟩
  | delRoot R =>
      exact ⟨ih.1, wordUT_filter _ ih.2.1, ih.2.2⟩

/-- Every reachable database state satisfies the unique-together invariants. -/
theorem reachable_inv {db : DB} (h : Reachable db) : SchemaInv db := by
  induction h with
  | empty =>
      refine ⟨?_, ?_, ?_⟩ <;> intro x hx <;> simp [DB.empty] at hx
  | step _ hs ih => exact step_inv hs ih

theorem dbFull_reachable : Reachable dbFull := by
  have h1 : Reachable dbR1 := .step .empty (.insSura suraFatihah rfl)
  have h2 : Reachable dbR2 := .step h1 (.insAya ayaOne rfl)
  have h3 : Reachable dbR3 := .step h2 (.insAya ayaTwo rfl)
  have h4 : Reachable dbR4 := .step h3 (.insQT qtA rfl)
  have h5 : Reachable dbR5 := .step h4 (.insQT qtB rfl)
  have h6 : Reachable dbR6 := .step h5 (.insTA taA rfl)
  have h7 : Reachable dbR7 := .step h6 (.insTA taB rfl)
  have h8 : Reachable dbR8 := .step h7 (.insRoot rootSmw rfl)
  have h9 : Reachable dbR9 := .step h8 (.insLemma lemmaIsm rfl)
  have h10 : Reachable dbR10 := .step h9 (.insWord 1 wiOne rfl)
  exact .step h10 (.insWord 2 wiTwo rfl)

theorem insertAya_dup {db : DB} {c : Aya}
    (h : ∃ d ∈ db.ayas, d.sura = c.sura ∧ d.number = c.number) :
    insertAya db c = .error .uniquenessViolation := by
  obtain ⟨d, hd, hs, hn⟩ := h
  have hany : db.ayas.any (fun b => b.sura == c.sura && b.number == c.number) = true :=
    List.any_eq_true.mpr ⟨d, hd, by simp [hs, hn]⟩
  unfold insertAya
  simp [hany]

/-- Claim C3: in every reachable database state, distinct Aya records with the
same `sura` have different `number` values; inserting an Aya that duplicates
an existing `(sura, number)` pair fails with a UniquenessViolation and leaves
the state unchanged. -/
theorem aya_sura_number_unique (db : DB) (h : Reachable db) (a b c : Aya)
    (ha : a ∈ db.ayas) (hb : b ∈ db.ayas) (hab : a ≠ b) (hs : a.sura = b.sura)
    (hc : ∃ d ∈ db.ayas, d.sura = c.sura ∧ d.number = c.number) :
    a.number ≠ b.number ∧ tryInsertAya db c = (db, some DbError.uniquenessViolation) := by
  refine ⟨fun hn => hab ((reachable_inv h).1 a ha b hb hs hn), ?_⟩
  unfold tryInsertAya
  rw [insertAya_dup hc]

/-- Witness for C3 at a concrete reachable state with a concrete duplicate. -/
theorem aya_sura_number_unique_witness :
    Reachable dbFull ∧ ayaOne ∈ dbFull.ayas ∧ ayaTwo ∈ dbFull.ayas ∧
    ayaOne ≠ ayaTwo ∧ ayaOne.sura = ayaTwo.sura ∧
    (∃ d ∈ dbFull.ayas, d.sura = ayaDup.sura ∧ d.number = ayaDup.number) ∧
    (ayaOne.number ≠ ayaTwo.number ∧
      tryInsertAya dbFull ayaDup = (dbFull, some DbError.uniquenessViolation)) :=
  ⟨dbFull_reachable, by decide, by decide, by decide, by decide, by decide,
   aya_sura_number_unique dbFull dbFull_reachable ayaOne ayaTwo ayaDup (by decide) (by decide)
     (by decide) (by decide) (by decide)⟩

/-- Claim C4: in every reachable database state, distinct Word records that
reference the same `aya` have different `number` values. -/
theorem word_aya_number_unique (db : DB) (h : Reachable db) (v w : Word)
    (hv : v ∈ db.words) (hw : w ∈ db.words) (hvw : v ≠ w) (ha : v.aya = w.aya) :
    v.number ≠ w.number :=
  fun hn => hvw ((reachable_inv h).2.1 v hv w hw ha hn)

/-- Witness for C4 at a concrete reachable state holding two words of one aya. -/
theorem word_aya_number_unique_witness :
    Reachable dbFull ∧ wdOne ∈ dbFull.words ∧ wdTwo ∈ dbFull.words ∧
    wdOne ≠ wdTwo ∧ wdOne.aya = wdTwo.aya ∧ wdOne.number ≠ wdTwo.number :=
  ⟨dbFull_reachable, by decide, by decide, by decide, by decide,
   word_aya_number_unique dbFull dbFull_reachable wdOne wdTwo (by decide) (by decide)
     (by decide) (by decide)⟩

/-- Claim C5: in every reachable database state, distinct TranslatedAya
records differ on the `(aya, translation)` pair. -/
theorem translated_aya_unique (db : DB) (h : Reachable db) (t u : TranslatedAya)
    (ht : t ∈ db.translatedAyas) (hu : u ∈ db.translatedAyas) (htu : t ≠ u) :
    (t.aya, t.translation) ≠ (u.aya, u.translation) := by
  intro hp
  have h1 : t.aya = u.aya := congrArg Prod.fst hp
  have h2 : t.translation = u.translation := congrArg Prod.snd hp
  exact htu ((reachable_inv h).2.2 t ht u hu h1 h2)

/-- Witness for C5 at a concrete reachable state holding two translations. -/
theorem translated_aya_unique_witness :
    Reachable dbFull ∧ taA ∈ dbFull.translatedAyas ∧ taB ∈ dbFull.translatedAyas ∧
    taA ≠ taB ∧ (taA.aya, taA.translation) ≠ (taB.aya, taB.translation) :=
  ⟨dbFull_reachable, by decide, by decide, by decide,
   translated_aya_unique dbFull dbFull_reachable taA taB (by decide) (by decide) (by decide)⟩

/-- Claim C6: deleting Sura `S` removes every Aya, Word and TranslatedAya
whose `sura` reference equals `S` (and the Sura itself): after the delete no
record in those tables references `S`. -/
theorem sura_delete_cascades (db : DB) (S : Int) (a : Aya) (w : Word)
    (t : TranslatedAya) (s : Sura)
    (ha : a.sura = S) (hw : w.sura = S) (ht : t.sura = S) (hs : s.number = S) :
    a ∉ (deleteSura db S).ayas ∧ w ∉ (deleteSura db S).words ∧
    t ∉ (deleteSura db S).translatedAyas ∧ s ∉ (deleteSura db S).suras := by
  refine ⟨fun hm => ?_, fun hm => ?_, fun hm => ?_, fun hm => ?_⟩
  · have h2 := (List.mem_filter.mp hm).2
    simp [ha] at h2
  · have h2 := (List.mem_filter.mp hm).2
    simp [hw] at h2
  · have h2 := (List.mem_filter.mp hm).2
    simp [ht] at h2
  · have h2 := (List.mem_filter.mp hm).2
    simp [hs] at h2

/-- Witness for C6 at a concrete database. -/
theorem sura_delete_cascades_witness :
    ayaOne.sura = 1 ∧ wdOne.sura = 1 ∧ taA.sura = 1 ∧ suraFatihah.number = 1 ∧
    (ayaOne ∉ (deleteSura dbFull 1).ayas ∧ wdOne ∉ (deleteSura dbFull 1).words ∧
      taA ∉ (deleteSura dbFull 1).translatedAyas ∧ suraFatihah ∉ (deleteSura dbFull 1).suras) :=
  ⟨rfl, rfl, rfl, rfl,
   sura_delete_cascades dbFull 1 ayaOne wdOne taA suraFatihah rfl rfl rfl rfl⟩

/-- Claim C7: deleting Root `R` removes every Lemma whose `root` is `R`,
every Word whose `root` is `R`, and — through the CASCADE on the `lemma`
foreign key — every Word whose lemma is one of `R`'s dependent Lemmas. -/
theorem root_delete_cascades (db : DB) (R : Nat) (l : Lemma) (w : Word)
    (hlr : l.root = some R) (hlm : l ∈ db.lemmas) :
    l ∉ (deleteRoot db R).lemmas ∧
    (w.root = some R → w ∉ (deleteRoot db R).words) ∧
    (w.lemma' = l.id → w ∉ (deleteRoot db R).words) := by
  refine ⟨fun hm => ?_, fun hr hm => ?_, fun hl hm => ?_⟩
  · have h2 := (List.mem_filter.mp hm).2
    simp [hlr] at h2
  · have h2 := (List.mem_filter.mp hm).2
    simp [hr] at h2
  · have h2 := (List.mem_filter.mp hm).2
    have hany : (db.lemmas.filter (fun u => u.root == some R)).any
        (fun u => u.id == w.lemma') = true :=
      List.any_eq_true.mpr ⟨l, List.mem_filter.mpr ⟨hlm, by simp [hlr]⟩, by simp [hl]⟩
    simp [hany] at h2

/-- Witness for C7 at a concrete database. -/
theorem root_delete_cascades_witness :
    lemmaIsm.root = some 1 ∧ lemmaIsm ∈ dbFull.lemmas ∧
    (lemmaIsm ∉ (deleteRoot dbFull 1).lemmas ∧
      (wdOne.root = some 1 → wdOne ∉ (deleteRoot dbFull 1).words) ∧
      (wdOne.lemma' = lemmaIsm.id → wdOne ∉ (deleteRoot dbFull 1).words)) :=
  ⟨rfl, by decide, root_delete_cascades dbFull 1 lemmaIsm wdOne rfl (by decide)⟩

/-- Claim C10: deleting Root `R` leaves in place every Lemma whose `root` is
null or a different root, and every Word whose `root` is null or a different
root and whose lemma is not one of `R`'s dependent Lemmas; the other tables
are untouched. -/
theorem root_delete_frame (db : DB) (R : Nat) (l : Lemma) (w : Word)
    (hlm : l ∈ db.lemmas) (hlr : l.root ≠ some R)
    (hwm : w ∈ db.words) (hwr : w.root ≠ some R)
    (hwl : ∀ u ∈ db.lemmas, u.root = some R → w.lemma' ≠ u.id) :
    l ∈ (deleteRoot db R).lemmas ∧ w ∈ (deleteRoot db R).words ∧
    (deleteRoot db R).suras = db.suras ∧ (deleteRoot db R).ayas = db.ayas ∧
    (deleteRoot db R).quranTranslations = db.quranTranslations ∧
    (deleteRoot db R).translatedAyas = db.translatedAyas := by
  have hany : (db.lemmas.filter (fun u => u.root == some R)).any
      (fun u => u.id == w.lemma') = false := by
    rw [List.any_eq_false]
    intro u hu
    have hum := List.mem_filter.mp hu
    have hur : u.root = some R := by simpa using hum.2
    have hne := hwl u hum.1 hur
    simp [beq_iff_eq]
    exact fun h => hne h.symm
  refine ⟨List.mem_filter.mpr ⟨hlm, by simp [hlr]⟩,
    List.mem_filter.mpr ⟨hwm, by simp [hwr, hany]⟩, rfl, rfl, rfl, rfl⟩

/-- Witness for C10 at a concrete database holding unrelated records. -/
theorem root_delete_frame_witness :
    lemmaRootless ∈ dbFrame.lemmas ∧ lemmaRootless.root ≠ some 1 ∧
    wdRootless ∈ dbFrame.words ∧ wdRootless.root ≠ some 1 ∧
    (∀ u ∈ dbFrame.lemmas, u.root = some 1 → wdRootless.lemma' ≠ u.id) ∧
    (lemmaRootless ∈ (deleteRoot dbFrame 1).lemmas ∧
      wdRootless ∈ (deleteRoot dbFrame 1).words ∧
      (deleteRoot dbFrame 1).suras = dbFrame.suras ∧
      (deleteRoot dbFrame 1).ayas = dbFrame.ayas ∧
      (deleteRoot dbFrame 1).quranTranslations = dbFrame.quranTranslations ∧
      (deleteRoot dbFrame 1).translatedAyas = dbFrame.translatedAyas) :=
  ⟨by decide, by decide, by decide, by decide, by decide,
   root_delete_frame dbFrame 1 lemmaRootless wdRootless (by decide) (by decide)
     (by decide) (by decide) (by decide)⟩

/-- Claim C8: a Word whose `root` is absent inserts successfully when a
`lemma` is supplied and the remaining constraints hold, while a Word without
a `lemma` is rejected: `root` is nullable, `lemma` is required. -/
theorem word_root_nullable_lemma_required (db : DB) (i j : Nat) (w v : WordInput) (lid : Nat)
    (hw : w.lemma' = none)
    (hv1 : v.lemma' = some lid) (hv2 : v.root = none)
    (hv3 : db.words.any (fun u => u.aya == v.aya && u.number == v.number) = false)
    (hv4 : db.words.any (fun u => u.id == j) = false)
    (hv5 : db.suras.any (fun s => s.number == v.sura) = true)
    (hv6 : db.ayas.any (fun a => a.id == v.aya) = true)
    (hv7 : db.lemmas.any (fun l => l.id == lid) = true) :
    insertWord db i w = .error .requiredFieldMissing ∧
    insertWord db j v =
      .ok { db with words := ⟨j, v.sura, v.aya, v.number, v.token, v.root, lid⟩ :: db.words } := by
  constructor
  · unfold insertWord
    rw [hw]
  · unfold insertWord
    rw [hv1]
    simp [hv2, hv3, hv4, hv5, hv6, hv7]

/-- Witness for C8 at a concrete database and concrete word rows. -/
theorem word_root_nullable_lemma_required_witness :
    wiNoLemma.lemma' = none ∧ wiNoRoot.lemma' = some 1 ∧ wiNoRoot.root = none ∧
    (dbFull.words.any (fun u => u.aya == wiNoRoot.aya && u.number == wiNoRoot.number) = false) ∧
    (dbFull.words.any (fun u => u.id == 3) = false) ∧
    (dbFull.suras.any (fun s => s.number == wiNoRoot.sura) = true) ∧
    (dbFull.ayas.any (fun a => a.id == wiNoRoot.aya) = true) ∧
    (dbFull.lemmas.any (fun l => l.id == 1) = true) ∧
    (insertWord dbFull 3 wiNoLemma = .error .requiredFieldMissing ∧
      insertWord dbFull 3 wiNoRoot =
        .ok { dbFull with
              words := ⟨3, wiNoRoot.sura, wiNoRoot.aya, wiNoRoot.number, wiNoRoot.token,
                         wiNoRoot.root, 1⟩ :: dbFull.words }) :=
  ⟨rfl, rfl, rfl, by decide, by decide, by decide, by decide, by decide,
   word_root_nullable_lemma_required dbFull 3 3 wiNoLemma wiNoRoot 1 rfl rfl rfl
     (by decide) (by decide) (by decide) (by decide) (by decide)⟩

/-- Claim C9: `get_absolute_url` is a pure function of the key fields — two
Suras with the same `number`, two Ayas with the same `(sura, number)`, and,
within one database, two Words with the same `(sura, aya, number)` resolve
to the same reference descriptor. -/
theorem get_absolute_url_pure (db : DB) (s1 s2 : Sura) (a1 a2 : Aya) (w1 w2 : Word)
    (hs : s1.number = s2.number)
    (ha1 : a1.sura = a2.sura) (ha2 : a1.number = a2.number)
    (hw1 : w1.sura = w2.sura) (hw2 : w1.aya = w2.aya) (hw3 : w1.number = w2.number) :
    s1.get_absolute_url = s2.get_absolute_url ∧
    a1.get_absolute_url = a2.get_absolute_url ∧
    Word.get_absolute_url db w1 = Word.get_absolute_url db w2 := by
  refine ⟨?_, ?_, ?_⟩
  · simp [Sura.get_absolute_url, hs]
  · simp [Aya.get_absolute_url, ha1, ha2]
  · simp [Word.get_absolute_url, hw1, hw2, hw3]

/-- Witness for C9: records differing everywhere except their key fields
resolve to the same descriptors. -/
theorem get_absolute_url_pure_witness :
    suraFatihah.number = suraSameKey.number ∧
    ayaOne.sura = ayaSameKey.sura ∧ ayaOne.number = ayaSameKey.number ∧
    wdOne.sura = wdSameKey.sura ∧ wdOne.aya = wdSameKey.aya ∧ wdOne.number = wdSameKey.number ∧
    (suraFatihah.get_absolute_url = suraSameKey.get_absolute_url ∧
      ayaOne.get_absolute_url = ayaSameKey.get_absolute_url ∧
      Word.get_absolute_url dbFull wdOne = Word.get_absolute_url dbFull wdSameKey) :=
  ⟨rfl, rfl, rfl, rfl, rfl, rfl,
   get_absolute_url_pure dbFull suraFatihah suraSameKey ayaOne ayaSameKey wdOne wdSameKey
     rfl rfl rfl rfl rfl rfl⟩

/-- Claim C1 (amended): `Aya.end_marker` is a constant function — independent
of every field of the Aya — returning the fixed HTML-entity glyph sequence
whose code points are U+FD3F (ornate right parenthesis), U+0661
(Arabic-Indic digit one) and U+FD3E (ornate left parenthesis). -/
theorem end_marker_constant (a b : Aya) :
    a.end_marker = b.end_marker ∧
    entityCodepoints a.end_marker = [0xFD3F, 0x0661, 0xFD3E] :=
  ⟨rfl, rfl⟩

/-- Counterexample for C1 as stated: the marker's code points include
neither U+FD37 (64823) nor U+06C1 (1729). -/
theorem end_marker_glyphs_counterexample :
    64823 ∉ entityCodepoints (Aya.end_marker ⟨1, 1, 1, "نص"⟩) ∧
    1729 ∉ entityCodepoints (Aya.end_marker ⟨1, 1, 1, "نص"⟩) := by
  decide

/-- Claim C2 (amended): the `__str__` renderings of Aya, Root, Lemma and Word
delegate to `unicode_to_buckwalter` (modelled by the arbitrary function `ub`)
on `text`, `letters`, `token` and `token` respectively, while `Sura.__str__`
returns the `tname` field directly, without transliteration. -/
theorem str_delegates_to_buckwalter (ub : String → String) (s : Sura) (a : Aya)
    (r : Root) (l : Lemma) (w : Word) :
    Aya.str ub a = ub a.text ∧ Root.str ub r = ub r.letters ∧
    Lemma.str ub l = ub l.token ∧ Word.str ub w = ub w.token ∧
    Sura.str s = s.tname :=
  ⟨rfl, rfl, rfl, rfl, rfl⟩

/-- Counterexample for C2 as stated: two Suras share the Arabic `name` yet
render differently under `__str__`, so `Sura.__str__` is not any function of
the Arabic field — in particular not `unicode_to_buckwalter` applied to it. -/
theorem sura_str_counterexample :
    suraStrA.name = suraStrB.name ∧ Sura.str suraStrA ≠ Sura.str suraStrB := by
  exact ⟨rfl, by decide⟩

